import Mathlib

/-!
Shallow embedding of the Cursive debug-logger core:
the capture pipeline in src/logger.rs (global circular buffers, module
fan-out, one-time logger installation) and the severity/viewport filtering
logic in src/views/debug_view.rs.

Machine integers do not occur in the modelled code; buffer lengths and
capacities are Nat.  Timestamps (chrono Utc::now) are modelled by an
arbitrary clock function sampled at an increasing call counter, so any
sequence of observed times is representable.  A Rust panic is modelled by
Option.none on the operations that can panic.
-/

/-- Severity levels of the Rust log crate, in its declaration order:
Error, Warn, Info, Debug, Trace.  The derived Rust ordering is by this
declaration order, so numerically Error is least and Trace is greatest. -/
inductive Level where
  | error
  | warn
  | info
  | debug
  | trace
deriving DecidableEq

/-- Numeric rank of a level in the Rust log crate ordering (Error = 1 is
the smallest; the derived PartialOrd compares these numbers). -/
def Level.toNat : Level → Nat
  | .error => 1
  | .warn => 2
  | .info => 3
  | .debug => 4
  | .trace => 5

/-- Spec-side severity rank: Error is most severe, Trace least severe.
Used only to state the visibility claim; the code compares Level.toNat. -/
def Level.severity : Level → Nat
  | .error => 4
  | .warn => 3
  | .info => 2
  | .debug => 1
  | .trace => 0

/-- The Rust log crate LevelFilter: Off plus one value per level. -/
inductive LevelFilter where
  | off
  | error
  | warn
  | info
  | debug
  | trace
deriving DecidableEq

/-- LevelFilter::to_level: Off maps to None, the rest to their Level. -/
def LevelFilter.to_level : LevelFilter → Option Level
  | .off => none
  | .error => some .error
  | .warn => some .warn
  | .info => some .info
  | .debug => some .debug
  | .trace => some .trace

/-- record_above_set_filter from src/views/debug_view.rs: if no display
filter is set (to_level gives None), display all logs; otherwise display
the record when record_level <= display_level in the Rust Level order. -/
def record_above_set_filter (record_level : Level) (display_filter : LevelFilter) : Bool :=
  match display_filter.to_level with
  | some display_level => decide (record_level.toNat ≤ display_level.toNat)
  | none => true

/-- Rust str::split with a non-empty pattern, on char lists: scan left to
right, cut at each non-overlapping occurrence of the separator.  The fuel
argument makes the recursion structural; fuel at least the length of the
scanned list plus one is enough, since every step either consumes a
character or consumes the (non-empty) separator. -/
def strSplitAux (sep : List Char) : Nat → List Char → List Char → List (List Char)
  | 0, s, acc => [acc.reverse ++ s]
  | fuel + 1, s, acc =>
    if sep ≠ [] ∧ sep.isPrefixOf s then
      acc.reverse :: strSplitAux sep fuel (s.drop sep.length) []
    else
      match s with
      | [] => [acc.reverse]
      | c :: rest => strSplitAux sep fuel rest (c :: acc)

/-- Rust str::split for a non-empty separator pattern (the code only ever
splits on the module-path separator, which is non-empty). -/
def rustSplit (sep s : String) : List String :=
  (strSplitAux sep.toList (s.toList.length + 1) s.toList []).map fun cs => String.mk cs

/-- get_top_level_record_module from src/logger.rs:
record.target().split(separator).next().unwrap_or the sentinel.  Note that
Rust split always yields at least one (possibly empty) segment, so the
sentinel branch is unreachable. -/
def get_top_level_record_module (target : String) : String :=
  ((rustSplit "::" target).head?).getD "<unknown>"

/-- A stored log record, as in src/logger.rs: level, normalized module,
time of insertion, message text. -/
structure Record where
  level : Level
  module : String
  time : Nat
  message : String
deriving DecidableEq

/-- An incoming log event as handed to the sink by the log facade:
its level, its raw hierarchical target path, and its formatted message. -/
structure LogEvent where
  level : Level
  target : String
  args : String
deriving DecidableEq

/-- The eviction-then-push step of log_record_to on a buffer of capacity
cap: if len equals the capacity, pop_front first, then push_back. -/
def pushEvict (cap : Nat) (r : α) (buf : List α) : List α :=
  (if buf.length = cap then buf.tail else buf) ++ [r]

/-- Record construction inside log_record_to: the level and formatted
message of the event, the normalized top-level module, and the time
sampled at this call. -/
def mkRecord (e : LogEvent) (t : Nat) : Record :=
  { level := e.level
    module := get_top_level_record_module e.target
    time := t
    message := e.args }

/-- log_record_to from src/logger.rs on a buffer of capacity cap: evict
the oldest record when full, then push the freshly built record, sampling
the clock at the current call counter (which advances by one). -/
def log_record_to (cap : Nat) (clock : Nat → Nat) (e : LogEvent) (tick : Nat)
    (buf : List Record) : List Record × Nat :=
  (pushEvict cap (mkRecord e (clock tick)) buf, tick + 1)

/-- The global mutable state of src/logger.rs: MODULE, MODULE_LOGS, LOGS,
whether log::set_logger has been called, the log crate max level, and the
clock call counter. -/
structure LoggerState where
  module : Option String
  moduleLogs : List Record
  logs : List Record
  loggerSet : Bool
  maxLevel : LevelFilter
  tick : Nat
deriving DecidableEq

/-- CursiveLogger::log from src/logger.rs: append to LOGS unconditionally;
then, if a custom module is registered and the event's normalized top-level
module equals it, append to MODULE_LOGS as well.  N1 and N2 are the
capacities of LOGS and MODULE_LOGS. -/
def log (N1 N2 : Nat) (clock : Nat → Nat) (e : LogEvent) (s : LoggerState) : LoggerState :=
  let s1 : LoggerState :=
    { s with
      logs := (log_record_to N1 clock e s.tick s.logs).1
      tick := (log_record_to N1 clock e s.tick s.logs).2 }
  match s.module with
  | some module_name =>
    if get_top_level_record_module e.target = module_name then
      { s1 with
        moduleLogs := (log_record_to N2 clock e s1.tick s.moduleLogs).1
        tick := (log_record_to N2 clock e s1.tick s.moduleLogs).2 }
    else s1
  | none => s1

/-- log::set_logger: installs the global handler; panics (None) if a
handler is already installed. -/
def set_logger (s : LoggerState) : Option LoggerState :=
  if s.loggerSet then none else some { s with loggerSet := true }

/-- init from src/logger.rs: reserve the LOGS buffer, install the logger
(panicking if one is already set), then set the max level to Trace. -/
def init (s : LoggerState) : Option LoggerState :=
  match set_logger s with
  | none => none
  | some s1 => some { s1 with maxLevel := LevelFilter.trace }

/-- init_for_module from src/logger.rs: record the module to filter for,
reserve the MODULE_LOGS buffer, then run init. -/
def init_for_module (m : String) (s : LoggerState) : Option LoggerState :=
  init { s with module := some m }

/-- Iterated delivery of a sequence of log events to the sink. -/
def processEvents (N1 N2 : Nat) (clock : Nat → Nat) (es : List LogEvent)
    (s : LoggerState) : LoggerState :=
  es.foldl (fun st e => log N1 N2 clock e st) s

/-- The last n elements of a list (all of it when n exceeds the length). -/
def takeLast (n : Nat) (l : List α) : List α :=
  l.drop (l.length - n)

/-- The time-free content of a stored record: level, module, message. -/
def logical (r : Record) : Level × String × String :=
  (r.level, r.module, r.message)

/-- The time-free record an event gives rise to, independent of the clock. -/
def logicalEvent (e : LogEvent) : Level × String × String :=
  (e.level, get_top_level_record_module e.target, e.args)

/-- The skip count computed in DebugView::draw:
logs.len().saturating_sub(viewport height). -/
def drawSkipped (len height : Nat) : Nat :=
  len - height

/-- The records DebugView::draw iterates over: the store snapshot with the
first drawSkipped elements skipped. -/
def drawSnapshot (logs : List Record) (height : Nat) : List Record :=
  logs.drop (drawSkipped logs.length height)

/-- The pristine global state: no module registered, both buffers empty,
no handler installed, filter off, clock counter zero. -/
def newLoggerState : LoggerState :=
  { module := none
    moduleLogs := []
    logs := []
    loggerSet := false
    maxLevel := LevelFilter.off
    tick := 0 }

/-- The state after a successful init_for_module on the pristine state
with module name net. -/
def registeredState : LoggerState :=
  { module := some "net"
    moduleLogs := []
    logs := []
    loggerSet := true
    maxLevel := LevelFilter.trace
    tick := 0 }

/-- The state a successful init_for_module leaves behind: the module name
set, the handler installed, the max level at Trace, everything else kept. -/
def afterRegister (m : String) (s : LoggerState) : LoggerState :=
  { s with module := some m, loggerSet := true, maxLevel := LevelFilter.trace }

/-- A log of three events matching the concrete scenario in the spec:
A from ui, then B and C from the net module. -/
def sampleEvents : List LogEvent :=
  [{ level := Level.error, target := "ui", args := "A" },
   { level := Level.info, target := "net", args := "B" },
   { level := Level.warn, target := "net::conn", args := "C" }]

/-- takeLast keeps a list that already fits. -/
theorem takeLast_of_length_le (n : Nat) (l : List α) (h : l.length ≤ n) :
    takeLast n l = l := by
  simp [takeLast, Nat.sub_eq_zero_of_le h]

/-- Length of takeLast. -/
theorem length_takeLast (n : Nat) (l : List α) :
    (takeLast n l).length = min n l.length := by
  simp [takeLast, List.length_drop]
  omega

/-- The eviction-then-push step keeps the length within a positive capacity. -/
theorem pushEvict_length_le (cap : Nat) (hcap : 0 < cap) (r : α) (buf : List α)
    (h : buf.length ≤ cap) : (pushEvict cap r buf).length ≤ cap := by
  by_cases hb : buf.length = cap <;>
    simp [pushEvict, hb, List.length_tail] <;> omega

/-- On a store within its positive capacity, eviction-then-push keeps
exactly the last cap elements of the extended sequence. -/
theorem pushEvict_eq_takeLast (cap : Nat) (hcap : 0 < cap) (r : α) (buf : List α)
    (h : buf.length ≤ cap) : pushEvict cap r buf = takeLast cap (buf ++ [r]) := by
  by_cases hb : buf.length = cap
  · have hne : buf ≠ [] := by
      intro hnil
      rw [hnil] at hb
      simp at hb
      omega
    have hcount : (buf ++ [r]).length - cap = 1 := by
      simp only [List.length_append, List.length_singleton]
      omega
    simp only [pushEvict, takeLast, if_pos hb, hcount, List.drop_one]
    exact (List.tail_append_of_ne_nil hne).symm
  · have hcount : (buf ++ [r]).length - cap = 0 := by
      simp only [List.length_append, List.length_singleton]
      omega
    simp only [pushEvict, takeLast, if_neg hb, hcount, List.drop_zero]

/-- takeLast after an append only depends on the last n elements of the
left part. -/
theorem takeLast_append_left (n : Nat) (l ys : List α) :
    takeLast n (takeLast n l ++ ys) = takeLast n (l ++ ys) := by
  unfold takeLast
  rw [List.drop_append_eq_append_drop, List.drop_append_eq_append_drop,
      List.drop_drop]
  have e1 : l.length - n + ((l.drop (l.length - n) ++ ys).length - n)
      = (l ++ ys).length - n := by
    simp [List.length_append, List.length_drop]
    omega
  have e2 : (l.drop (l.length - n) ++ ys).length - n - (l.drop (l.length - n)).length
      = (l ++ ys).length - n - l.length := by
    simp [List.length_append, List.length_drop]
    omega
  rw [e1, e2]

/-- Combined step: pushing onto a fitting store and then taking the last
cap of anything appended after it is taking the last cap of the whole
extended sequence. -/
theorem pushEvict_then_takeLast (cap : Nat) (hcap : 0 < cap) (r : α)
    (buf rest : List α) (h : buf.length ≤ cap) :
    takeLast cap (pushEvict cap r buf ++ rest) = takeLast cap (buf ++ r :: rest) := by
  rw [pushEvict_eq_takeLast cap hcap r buf h, takeLast_append_left]
  simp [List.append_assoc]

/-- map commutes with the eviction-then-push step. -/
theorem map_pushEvict (f : α → β) (cap : Nat) (r : α) (buf : List α) :
    (pushEvict cap r buf).map f = pushEvict cap (f r) (buf.map f) := by
  by_cases hb : buf.length = cap <;>
    simp [pushEvict, hb, List.map_tail]

/-- Folding eviction-then-push over a sequence of appends, starting from
any fitting store, retains exactly the last cap elements. -/
theorem foldl_pushEvict (cap : Nat) (hcap : 0 < cap) :
    ∀ (ms : List α) (start : List α), start.length ≤ cap →
      ms.foldl (fun buf r => pushEvict cap r buf) start = takeLast cap (start ++ ms)
  | [], start, h => by
      simp [takeLast_of_length_le cap start h]
  | m :: ms, start, h => by
      have h1 := pushEvict_length_le cap hcap m start h
      rw [List.foldl_cons, foldl_pushEvict cap hcap ms _ h1,
          pushEvict_then_takeLast cap hcap m start ms h]

/-- The time-free content of a freshly built record is determined by the
event alone. -/
theorem logical_mkRecord (e : LogEvent) (t : Nat) :
    logical (mkRecord e t) = logicalEvent e := rfl

/-- Delivering one event never changes the registered module name. -/
theorem log_module_eq (N1 N2 : Nat) (clock : Nat → Nat) (e : LogEvent)
    (s : LoggerState) : (log N1 N2 clock e s).module = s.module := by
  cases hm : s.module with
  | none => simp [log, hm]
  | some m =>
      by_cases hc : get_top_level_record_module e.target = m <;> simp [log, hm, hc]

/-- Delivering one event always pushes the freshly built record onto the
primary store. -/
theorem log_logs_eq (N1 N2 : Nat) (clock : Nat → Nat) (e : LogEvent)
    (s : LoggerState) :
    (log N1 N2 clock e s).logs = pushEvict N1 (mkRecord e (clock s.tick)) s.logs := by
  cases hm : s.module with
  | none => simp [log, log_record_to, hm]
  | some m =>
      by_cases hc : get_top_level_record_module e.target = m <;>
        simp [log, log_record_to, hm, hc]

/-- With a module registered, delivering one event pushes an
independently stamped copy onto the module store exactly when the event's
normalized top-level module matches. -/
theorem log_moduleLogs_eq (N1 N2 : Nat) (clock : Nat → Nat) (e : LogEvent)
    (s : LoggerState) (m : String) (hm : s.module = some m) :
    (log N1 N2 clock e s).moduleLogs =
      if get_top_level_record_module e.target = m then
        pushEvict N2 (mkRecord e (clock (s.tick + 1))) s.moduleLogs
      else s.moduleLogs := by
  by_cases hc : get_top_level_record_module e.target = m <;>
    simp [log, log_record_to, hm, hc]

/-- Invariant of delivering a sequence of events while a module m is
registered: the module name is preserved, both stores stay within their
positive capacities, the primary store retains the last N1 logical events
of everything ever appended to it, and the module store retains the last
N2 logical events among those whose normalized top-level module is m, in
order. -/
theorem processEvents_spec (N1 N2 : Nat) (h1 : 0 < N1) (h2 : 0 < N2)
    (clock : Nat → Nat) (m : String) (es : List LogEvent) :
    ∀ s : LoggerState, s.module = some m → s.logs.length ≤ N1 →
      s.moduleLogs.length ≤ N2 →
      (processEvents N1 N2 clock es s).module = some m ∧
      (processEvents N1 N2 clock es s).logs.length ≤ N1 ∧
      (processEvents N1 N2 clock es s).moduleLogs.length ≤ N2 ∧
      (processEvents N1 N2 clock es s).logs.map logical
        = takeLast N1 (s.logs.map logical ++ es.map logicalEvent) ∧
      (processEvents N1 N2 clock es s).moduleLogs.map logical
        = takeLast N2 (s.moduleLogs.map logical
            ++ (es.filter fun e => get_top_level_record_module e.target == m).map
                logicalEvent) := by
  induction es with
  | nil =>
      intro s hm hl hml
      refine ⟨hm, hl, hml, ?_, ?_⟩
      · simp [processEvents]
        exact (takeLast_of_length_le _ _ (by simpa using hl)).symm
      · simp [processEvents]
        exact (takeLast_of_length_le _ _ (by simpa using hml)).symm
  | cons e rest ih =>
      intro s hm hl hml
      have hstep : processEvents N1 N2 clock (e :: rest) s
          = processEvents N1 N2 clock rest (log N1 N2 clock e s) := rfl
      have hm1 : (log N1 N2 clock e s).module = some m := by
        rw [log_module_eq, hm]
      have hlogs1 : (log N1 N2 clock e s).logs
          = pushEvict N1 (mkRecord e (clock s.tick)) s.logs := log_logs_eq ..
      have hml1 : (log N1 N2 clock e s).moduleLogs
          = if get_top_level_record_module e.target = m then
              pushEvict N2 (mkRecord e (clock (s.tick + 1))) s.moduleLogs
            else s.moduleLogs := log_moduleLogs_eq N1 N2 clock e s m hm
      have hl1 : (log N1 N2 clock e s).logs.length ≤ N1 := by
        rw [hlogs1]
        exact pushEvict_length_le N1 h1 _ _ hl
      have hml1L : (log N1 N2 clock e s).moduleLogs.length ≤ N2 := by
        rw [hml1]
        split
        · exact pushEvict_length_le N2 h2 _ _ hml
        · exact hml
      obtain ⟨im, il, iml, ieq1, ieq2⟩ := ih (log N1 N2 clock e s) hm1 hl1 hml1L
      rw [hstep]
      refine ⟨im, il, iml, ?_, ?_⟩
      · rw [ieq1, hlogs1, map_pushEvict, logical_mkRecord,
            pushEvict_then_takeLast N1 h1 _ _ _ (by simpa using hl)]
        simp
      · rw [ieq2, hml1]
        by_cases hc : get_top_level_record_module e.target = m
        · rw [if_pos hc, map_pushEvict, logical_mkRecord,
              pushEvict_then_takeLast N2 h2 _ _ _ (by simpa using hml)]
          have hfc : (e :: rest).filter
              (fun e => get_top_level_record_module e.target == m)
              = e :: rest.filter (fun e => get_top_level_record_module e.target == m) := by
            simp [List.filter_cons, hc]
          rw [hfc]
          simp
        · rw [if_neg hc]
          have hfc : (e :: rest).filter
              (fun e => get_top_level_record_module e.target == m)
              = rest.filter (fun e => get_top_level_record_module e.target == m) := by
            simp [List.filter_cons, hc]
          rw [hfc]

/-- C1: for every bounded log store of positive capacity N and every
sequence of M appends starting from the empty store, the store afterwards
holds exactly min M N records, and they are exactly the last min M N
appended records in their original append order (so the length never
exceeds N); moreover an append that finds the store full first evicts the
oldest record (pop_front) and then inserts the new one at the tail. -/
theorem bounded_store_fifo (N : Nat) (hN : 0 < N) (ms : List Record) :
    (ms.foldl (fun buf r => pushEvict N r buf) []).length = min ms.length N ∧
    ms.foldl (fun buf r => pushEvict N r buf) [] = takeLast N ms ∧
    ∀ (buf : List Record) (r : Record), buf.length = N →
      pushEvict N r buf = buf.tail ++ [r] := by
  have hfold := foldl_pushEvict N hN ms [] (by simp)
  refine ⟨?_, ?_, ?_⟩
  · rw [hfold]
    simp [length_takeLast]
    omega
  · simpa using hfold
  · intro buf r hb
    simp [pushEvict, hb]

/-- Witness for C1: capacity 2, three appends; the store retains the last
two records. -/
theorem bounded_store_fifo_check :
    0 < 2 ∧
    [({ level := Level.error, module := "ui", time := 0, message := "A" } : Record),
     { level := Level.info, module := "net", time := 1, message := "B" },
     { level := Level.warn, module := "net", time := 2, message := "C" }].foldl
        (fun buf r => pushEvict 2 r buf) []
      = takeLast 2
          [({ level := Level.error, module := "ui", time := 0, message := "A" } : Record),
           { level := Level.info, module := "net", time := 1, message := "B" },
           { level := Level.warn, module := "net", time := 2, message := "C" }] :=
  ⟨by decide, (bounded_store_fifo 2 (by decide) _).2.1⟩

/-- C2: after a successful init_for_module for m, delivering any sequence
of events appends every event to the primary store unconditionally and
additionally appends every event whose normalized top-level module equals
m to the m-scoped store; each store, being bounded, retains the last N of
the records appended to it, and matching events appear in the same
relative order in both stores (the module store holds exactly the
order-preserving subsequence of matching events). -/
theorem fanout_completeness (N1 N2 : Nat) (h1 : 0 < N1) (h2 : 0 < N2)
    (clock : Nat → Nat) (m : String) (s0 s : LoggerState) (es : List LogEvent)
    (hreg : init_for_module m s0 = some s)
    (hl : s0.logs.length ≤ N1) (hml : s0.moduleLogs.length ≤ N2) :
    (processEvents N1 N2 clock es s).logs.map logical
      = takeLast N1 (s0.logs.map logical ++ es.map logicalEvent) ∧
    (processEvents N1 N2 clock es s).moduleLogs.map logical
      = takeLast N2 (s0.moduleLogs.map logical
          ++ (es.filter fun e => get_top_level_record_module e.target == m).map
              logicalEvent) := by
  by_cases hb : s0.loggerSet
  · simp [init_for_module, init, set_logger, hb] at hreg
  · have hval : init_for_module m s0 = some (afterRegister m s0) := by
      simp [init_for_module, init, set_logger, afterRegister, hb]
    rw [hval] at hreg
    have hs : afterRegister m s0 = s := Option.some_injective _ hreg
    subst hs
    have h := processEvents_spec N1 N2 h1 h2 clock m es (afterRegister m s0)
      rfl hl hml
    exact ⟨h.2.2.2.1, h.2.2.2.2⟩

/-- Witness for C2: register net on the pristine state, then deliver the
three sample events into capacity-2 stores. -/
theorem fanout_completeness_check :
    init_for_module "net" newLoggerState = some registeredState ∧
    (processEvents 2 2 (fun t => t) sampleEvents registeredState).logs.map logical
      = takeLast 2 (newLoggerState.logs.map logical ++ sampleEvents.map logicalEvent) ∧
    (processEvents 2 2 (fun t => t) sampleEvents registeredState).moduleLogs.map logical
      = takeLast 2 (newLoggerState.moduleLogs.map logical
          ++ (sampleEvents.filter
                fun e => get_top_level_record_module e.target == "net").map
              logicalEvent) :=
  ⟨rfl,
   (fanout_completeness 2 2 (by decide) (by decide) (fun t => t) "net"
      newLoggerState registeredState sampleEvents rfl (by decide) (by decide)).1,
   (fanout_completeness 2 2 (by decide) (by decide) (fun t => t) "net"
      newLoggerState registeredState sampleEvents rfl (by decide) (by decide)).2⟩

/-- C3: the severity visibility predicate is true iff no threshold is
configured (the filter is unset/Off, showing everything) or the record's
severity is at least as severe as the configured minimum, boundary
inclusive; in particular for threshold Warn, Error and Warn records are
visible and an Info record is not. -/
theorem severity_visibility (l : Level) (f : LevelFilter) :
    (record_above_set_filter l f = true ↔
      f.to_level = none ∨
        ∃ d : Level, f.to_level = some d ∧ d.severity ≤ l.severity) ∧
    record_above_set_filter Level.error LevelFilter.warn = true ∧
    record_above_set_filter Level.warn LevelFilter.warn = true ∧
    record_above_set_filter Level.info LevelFilter.warn = false ∧
    record_above_set_filter l LevelFilter.off = true := by
  refine ⟨?_, by decide, by decide, by decide, rfl⟩
  cases l <;> cases f <;>
    simp [record_above_set_filter, LevelFilter.to_level, Level.severity, Level.toNat]

/-- C6: the snapshot iteration of DebugView::draw skips exactly
max 0 (L - h) leading records and yields the remaining min L h most recent
records in insertion order; for a 1000-record store and height 20 it
yields exactly the last 20 records. -/
theorem viewport_skip (logs : List Record) (height : Nat) :
    (drawSnapshot logs height).length = min logs.length height ∧
    logs.take (drawSkipped logs.length height) ++ drawSnapshot logs height = logs ∧
    (drawSkipped logs.length height : Int)
      = max 0 ((logs.length : Int) - (height : Int)) ∧
    (logs.length = 1000 → drawSnapshot logs 20 = logs.drop 980) := by
  refine ⟨?_, ?_, ?_, ?_⟩
  · simp [drawSnapshot, drawSkipped, List.length_drop]
    omega
  · simp [drawSnapshot, drawSkipped, List.take_append_drop]
  · simp [drawSkipped]
    omega
  · intro h
    unfold drawSnapshot drawSkipped
    rw [h]

/-- Witness for C6: a store of 1000 records and a viewport of height 20
yield exactly the records after the first 980. -/
theorem viewport_skip_check :
    drawSnapshot
        (List.replicate 1000
          ({ level := Level.info, module := "net", time := 0, message := "m" } : Record))
        20
      = (List.replicate 1000
          ({ level := Level.info, module := "net", time := 0, message := "m" } : Record)).drop
          980 :=
  (viewport_skip _ 20).2.2.2 (by rw [List.length_replicate])

/-- C7: initializing the logger while a global handler is already
installed aborts (modelled by none) instead of completing as a no-op. -/
theorem double_init_panics (s : LoggerState) (h : s.loggerSet = true) :
    init s = none := by
  simp [init, set_logger, h]

/-- Witness for C7: init on a state whose handler is already installed. -/
theorem double_init_panics_check :
    init { newLoggerState with loggerSet := true } = none :=
  double_init_panics _ rfl

/-- Counterexample for C4: on the pristine state, a first registration of
net succeeds, but registering net a second time aborts (none) because
init_for_module unconditionally re-runs init, whose set_logger call finds
the handler already installed — so duplicate registration is not a
successful idempotent no-op. -/
theorem double_register_not_noop :
    (init_for_module "net" newLoggerState).isSome = true ∧
    (init_for_module "net" newLoggerState).bind (init_for_module "net") = none :=
  ⟨rfl, rfl⟩

/-- C4 as amended: after any successful registration of m, registering m
again sets the module name (leaving it at some m) but then aborts
(none) at the logger installation step instead of succeeding. -/
theorem double_register_aborts (m : String) (s s1 : LoggerState)
    (h : init_for_module m s = some s1) :
    init_for_module m s1 = none ∧ s1.module = some m := by
  by_cases hs : s.loggerSet
  · simp [init_for_module, init, set_logger, hs] at h
  · have hval : init_for_module m s = some (afterRegister m s) := by
      simp [init_for_module, init, set_logger, afterRegister, hs]
    rw [hval] at h
    have hs1 : afterRegister m s = s1 := Option.some_injective _ h
    subst hs1
    exact ⟨rfl, rfl⟩

/-- Witness for C4's amended claim: a second registration of net on the
already-registered state aborts while the module name stays net. -/
theorem double_register_aborts_check :
    init_for_module "net" registeredState = none ∧
    registeredState.module = some "net" :=
  double_register_aborts "net" newLoggerState registeredState rfl

/-- C5 (documenting the code bug): normalizing the empty source path
yields the empty string, not the sentinel, because Rust split always
yields a first (possibly empty) segment, so the unwrap fallback in
get_top_level_record_module is unreachable; consequently a log event with
empty target is stored with module equal to the empty string. -/
theorem empty_target_yields_empty_module :
    get_top_level_record_module "" = "" ∧
    get_top_level_record_module "" ≠ "<unknown>" ∧
    ∀ (N1 N2 : Nat) (clock : Nat → Nat) (s : LoggerState),
      (log N1 N2 clock { level := Level.info, target := "", args := "m" } s).logs.getLast?
        = some { level := Level.info, module := "", time := clock s.tick,
                 message := "m" } := by
  refine ⟨rfl, by decide, ?_⟩
  intro N1 N2 clock s
  rw [log_logs_eq]
  have hr : mkRecord { level := Level.info, target := "", args := "m" } (clock s.tick)
      = { level := Level.info, module := "", time := clock s.tick, message := "m" } := rfl
  rw [hr]
  simp [pushEvict]

/-- C8: source normalization is a pure, deterministic function of the raw
path string (two normalizations of the same path agree definitionally in
the embedding), and normalizing a hierarchical path takes the segment
before the first separator. -/
theorem normalization_pure :
    (∀ p : String, get_top_level_record_module p = get_top_level_record_module p) ∧
    get_top_level_record_module "a::b::c" = "a" :=
  ⟨fun _ => rfl, rfl⟩

/-- C9: when one event is routed to both stores, the two stored records
agree on level, module and message, but each samples its own timestamp at
its own insertion: the primary copy at the current clock call and the
module copy at the next one, so the two copies can carry different
times. -/
theorem fanout_records_independent (N1 N2 : Nat) (clock : Nat → Nat)
    (s : LoggerState) (e : LogEvent)
    (h : s.module = some (get_top_level_record_module e.target)) :
    ∃ r1 r2 : Record,
      (log N1 N2 clock e s).logs.getLast? = some r1 ∧
      (log N1 N2 clock e s).moduleLogs.getLast? = some r2 ∧
      r1.level = r2.level ∧ r1.module = r2.module ∧ r1.message = r2.message ∧
      r1.time = clock s.tick ∧ r2.time = clock (s.tick + 1) := by
  refine ⟨mkRecord e (clock s.tick), mkRecord e (clock (s.tick + 1)),
    ?_, ?_, rfl, rfl, rfl, rfl, rfl⟩
  · rw [log_logs_eq]
    simp [pushEvict]
  · rw [log_moduleLogs_eq N1 N2 clock e s _ h, if_pos rfl]
    simp [pushEvict]

/-- Witness for C9: with the identity clock on the registered state, the
two copies of one net event are stamped 0 and 1 respectively. -/
theorem fanout_records_independent_check :
    registeredState.module = some (get_top_level_record_module "net::conn") ∧
    ∃ r1 r2 : Record,
      (log 5 5 (fun t => t) { level := Level.info, target := "net::conn", args := "m" }
          registeredState).logs.getLast? = some r1 ∧
      (log 5 5 (fun t => t) { level := Level.info, target := "net::conn", args := "m" }
          registeredState).moduleLogs.getLast? = some r2 ∧
      r1.level = r2.level ∧ r1.module = r2.module ∧ r1.message = r2.message ∧
      r1.time = (fun t => t) registeredState.tick ∧
      r2.time = (fun t => t) (registeredState.tick + 1) :=
  ⟨rfl, fanout_records_independent 5 5 (fun t => t) registeredState
    { level := Level.info, target := "net::conn", args := "m" } rfl⟩

/-- C10: when no module is registered, delivering an event appends the
freshly built record only to the primary store and leaves both the
module store and the registered module name unchanged. -/
theorem no_module_frame (N1 N2 : Nat) (clock : Nat → Nat) (s : LoggerState)
    (e : LogEvent) (h : s.module = none) :
    (log N1 N2 clock e s).logs = pushEvict N1 (mkRecord e (clock s.tick)) s.logs ∧
    (log N1 N2 clock e s).moduleLogs = s.moduleLogs ∧
    (log N1 N2 clock e s).module = none := by
  refine ⟨log_logs_eq .., ?_, ?_⟩
  · simp [log, h]
  · rw [log_module_eq, h]

/-- Witness for C10: an event delivered to the pristine (unregistered)
state goes only to the primary store. -/
theorem no_module_frame_check :
    (log 2 2 (fun t => t) { level := Level.warn, target := "ui::button", args := "w" }
        newLoggerState).logs
      = pushEvict 2
          (mkRecord { level := Level.warn, target := "ui::button", args := "w" }
            ((fun t => t) newLoggerState.tick))
          newLoggerState.logs ∧
    (log 2 2 (fun t => t) { level := Level.warn, target := "ui::button", args := "w" }
        newLoggerState).moduleLogs = newLoggerState.moduleLogs ∧
    (log 2 2 (fun t => t) { level := Level.warn, target := "ui::button", args := "w" }
        newLoggerState).module = none :=
  no_module_frame 2 2 (fun t => t) newLoggerState
    { level := Level.warn, target := "ui::button", args := "w" } rfl
